import Mathlib

/-!
Verification development for the Vlasiator ionospheric boundary solver and
velocity-space storage (shallow embedding of
`src/sysboundary/ionosphere.h`, `src/velocity_block_container.h`,
`src/velocity_mesh_old.h`).

Machine integers (`uint32_t` localID/globalID values) are modelled as `Nat`
with explicit `% 2^32` reductions at the points where the C++ arithmetic can
wrap.  Floating-point `Real`/`Realf` values are modelled as exact real
numbers (`ℝ`) for the geometry kernel and as exact rationals (`ℚ`) for the
velocity block container, whose operations only move values around and never
compute with them.
-/

namespace Vlasiator

/-! ## Velocity block container (`src/velocity_block_container.h`)

`WID3` (number of cells per velocity block) and
`BlockParams::N_VELOCITY_BLOCK_PARAMS` come from `common.h`, which is not part
of the sources; both are compile-time positive constants.  The container
operations are uniform in them, so they are passed as explicit parameters
`wid3` and `npar` here.  `Realf`/`Real` cell values are modelled as `ℚ`:
`pop` and `recapacitate` only copy values, so the carrier type is irrelevant
to the claims. -/

/-- State of a `VelocityBlockContainer<LID>`: capacity and block count plus the
two backing vectors (`block_data` holds `wid3` cells per block, `parameters`
holds `npar` entries per block). -/
structure VelocityBlockContainer where
  currentCapacity : ℕ
  numberOfBlocks : ℕ
  block_data : List ℚ
  parameters : List ℚ
deriving DecidableEq

namespace VelocityBlockContainer

/-- `VelocityBlockContainer::pop` (velocity_block_container.h:290-294):
if the container is empty do nothing, otherwise decrement `numberOfBlocks`. -/
def pop (c : VelocityBlockContainer) : VelocityBlockContainer :=
  if c.numberOfBlocks = 0 then c
  else { c with numberOfBlocks := c.numberOfBlocks - 1 }

/-- `VelocityBlockContainer::recapacitate` (velocity_block_container.h:350-373):
refuse if the requested capacity is below the number of blocks; otherwise
build zero-initialized vectors of the new capacity, copy the live prefix of
`block_data` and `parameters` into them, swap them in and record the new
capacity. -/
def recapacitate (wid3 npar : ℕ) (c : VelocityBlockContainer) (newCapacity : ℕ) :
    Bool × VelocityBlockContainer :=
  if newCapacity < c.numberOfBlocks then (false, c)
  else
    let dummy_data := (List.range (newCapacity * wid3)).map
      (fun i => if i < c.numberOfBlocks * wid3 then c.block_data.getD i 0 else 0)
    let dummy_parameters := (List.range (newCapacity * npar)).map
      (fun i => if i < c.numberOfBlocks * npar then c.parameters.getD i 0 else 0)
    (true, { currentCapacity := newCapacity,
             numberOfBlocks := c.numberOfBlocks,
             block_data := dummy_data,
             parameters := dummy_parameters })

end VelocityBlockContainer

/-! ## Velocity mesh (`src/velocity_mesh_old.h`)

In Vlasiator the template parameters `GID` and `LID` are both instantiated at
`uint32_t`; index arithmetic is therefore reduced `% 2^32` wherever the C++
computation can wrap (the `gridLength` product in `initialize` and the
re-encoded global ID in `getGlobalID`). -/

/-- `VelocityMesh<GID,LID>::error_velocity_block` (= `0xFFFFFFFF`). -/
def error_velocity_block : ℕ := 4294967295

/-- `VelocityMesh<GID,LID>::error_velocity_block_index` (= `0xFFFFFFFF`). -/
def error_velocity_block_index : ℕ := 4294967295

/-- Static state of a `VelocityMesh<GID,LID>` (velocity_mesh_old.h:45-56). -/
structure VelocityMesh where
  max_velocity_blocks : ℕ
  blockLength : Fin 3 → ℕ
  blockSize : Fin 3 → ℝ
  cellSize : Fin 3 → ℝ
  gridSize : Fin 3 → ℝ
  gridLength : Fin 3 → ℕ
  meshMinLimits : Fin 3 → ℝ
  meshMaxLimits : Fin 3 → ℝ

namespace VelocityMesh

/-- `VelocityMesh::initialize` (velocity_mesh_old.h:177-208): record the mesh
limits and grid/block lengths and derive block and cell sizes; the
`max_velocity_blocks` product is computed in `LID` (= `uint32_t`) arithmetic,
hence the `% 2^32`. -/
noncomputable def initializeMesh (meshLimits : Fin 6 → ℝ)
    (gridLength blockLength : Fin 3 → ℕ) : VelocityMesh :=
  let meshMin : Fin 3 → ℝ := ![meshLimits 0, meshLimits 2, meshLimits 4]
  let meshMax : Fin 3 → ℝ := ![meshLimits 1, meshLimits 3, meshLimits 5]
  let gridSize : Fin 3 → ℝ := fun d => meshMax d - meshMin d
  let blockSize : Fin 3 → ℝ := fun d => gridSize d / (gridLength d : ℝ)
  { max_velocity_blocks := (gridLength 0 * gridLength 1 * gridLength 2) % 2 ^ 32
    blockLength := blockLength
    blockSize := blockSize
    cellSize := fun d => blockSize d / (blockLength d : ℝ)
    gridSize := gridSize
    gridLength := gridLength
    meshMinLimits := meshMin
    meshMaxLimits := meshMax }

/-- `VelocityMesh::getIndices` (velocity_mesh_old.h:149-159): returns
`(refLevel, i, j, k)`; out-of-range global IDs yield the error index triple.
The divisor `gridLength[0]*gridLength[1]` of the `k` component is computed in
`GID` (= `uint32_t`) arithmetic, hence the `% 2^32` on it. -/
def getIndices (m : VelocityMesh) (globalID : ℕ) : ℕ × ℕ × ℕ × ℕ :=
  if globalID ≥ m.max_velocity_blocks then
    (0, error_velocity_block_index, error_velocity_block_index,
        error_velocity_block_index)
  else
    (0, globalID % m.gridLength 0,
        (globalID / m.gridLength 0) % m.gridLength 1,
        globalID / (m.gridLength 0 * m.gridLength 1 % 2 ^ 32))

/-- `VelocityMesh::getGlobalID(refLevel,i,j,k)` (velocity_mesh_old.h:126-132):
bounds-check against `gridLength` and linearize; the sum is computed in `GID`
(= `uint32_t`) arithmetic, hence the `% 2^32`. -/
def getGlobalID (m : VelocityMesh) (refLevel i j k : ℕ) : ℕ :=
  if i ≥ m.gridLength 0 ∨ j ≥ m.gridLength 1 ∨ k ≥ m.gridLength 2 then
    error_velocity_block
  else
    (i + j * m.gridLength 0 + k * m.gridLength 0 * m.gridLength 1) % 2 ^ 32

end VelocityMesh

/-- A mesh whose `gridLength[0]*gridLength[1]` product overflows `uint32_t`
(65536 * 65537 = 2^32 + 65536), used as concrete test input: the wrapped
divisor makes the index decomposition disagree with the unwrapped one. -/
noncomputable def vmeshWrap : VelocityMesh :=
  VelocityMesh.initializeMesh (fun _ => (0 : ℝ)) ![65536, 65537, 2] (fun _ => 2)

/-! ## Ionosphere spherical triangle grid (`src/sysboundary/ionosphere.h`) -/

/-- `MAX_TOUCHING_ELEMENTS` (ionosphere.h:48): maximum number of elements
touching one node. -/
def MAX_TOUCHING_ELEMENTS : ℕ := 6

/-- `MAX_DEPENDING_NODES` (ionosphere.h:49): maximum number of depending
nodes. -/
def MAX_DEPENDING_NODES : ℕ := 10

/-- A 3-component real vector (`std::array<Real, 3>`), floating-point `Real`
modelled as `ℝ`. -/
@[ext]
structure Vec3 where
  c0 : ℝ
  c1 : ℝ
  c2 : ℝ

/-- The zero vector `{0,0,0}`, the sentinel value of an unmapped node
position. -/
def zeroVec : Vec3 := ⟨0, 0, 0⟩

/-- `SphericalTriGrid::Element` (ionosphere.h:55-61): a triangle spanned
between 3 corner node indices, tagged with a refinement level. -/
structure Element where
  refLevel : ℤ
  corners : Fin 3 → ℕ

/-- `SphericalTriGrid::Node` (ionosphere.h:65-83).  The fixed-capacity C
arrays of size `MAX_TOUCHING_ELEMENTS` / `MAX_DEPENDING_NODES` are modelled
as total functions on `ℕ`; only the prefix below the stored count is
meaningful, and the capacity bounds are stated separately as invariants. -/
structure Node where
  numTouchingElements : ℕ
  touchingElements : ℕ → ℕ
  numDepNodes : ℕ
  dependingNodes : ℕ → ℕ
  dependingCoeffs : ℕ → ℝ
  transposedCoeffs : ℕ → ℝ
  x : Vec3
  xMapped : Vec3
  depCoeffs : ℕ → ℝ
  depCoeffsT : ℕ → ℝ
  parameters : ℕ → ℝ

/-- The default-constructed node: zero counts, zero positions, zero
parameters (ionosphere.h:76-81 default member initializers). -/
def defaultNode : Node :=
  ⟨0, fun _ => 0, 0, fun _ => 0, fun _ => 0, fun _ => 0,
   zeroVec, zeroVec, fun _ => 0, fun _ => 0, fun _ => 0⟩

/-- The default-constructed element. -/
def defaultElement : Element := ⟨0, fun _ => 0⟩

/-- `SphericalTriGrid` (ionosphere.h:52-169): flat node and element storage.
The MPI communicator, rank, coupling flag and fsgrid coupling cache are
outside the modelled scope. -/
structure SphericalTriGrid where
  elements : List Element
  nodes : List Node

namespace SphericalTriGrid

/-- `nodes[i]` vector access (meaningful for `i < nodes.length`, as in the
C++ `std::vector` indexing). -/
def node (g : SphericalTriGrid) (i : ℕ) : Node := g.nodes.getD i defaultNode

/-- `elements[i]` vector access. -/
def element (g : SphericalTriGrid) (i : ℕ) : Element :=
  g.elements.getD i defaultElement

/-- `SphericalTriGrid::elementArea` (ionosphere.h:112-126): half the magnitude
of the cross product of the edge vectors `b - c` and `c - a` of the corner
sphere positions. -/
noncomputable def elementArea (g : SphericalTriGrid) (elementIndex : ℕ) : ℝ :=
  let a := (g.node ((g.element elementIndex).corners 0)).x
  let b := (g.node ((g.element elementIndex).corners 1)).x
  let c := (g.node ((g.element elementIndex).corners 2)).x
  let e1 : Vec3 := ⟨b.c0 - c.c0, b.c1 - c.c1, b.c2 - c.c2⟩
  let e2 : Vec3 := ⟨c.c0 - a.c0, c.c1 - a.c1, c.c2 - a.c2⟩
  let area : Vec3 := ⟨e1.c1 * e2.c2 - e1.c2 * e2.c1,
                      e1.c2 * e2.c0 - e1.c0 * e2.c2,
                      e1.c0 * e2.c1 - e1.c1 * e2.c0⟩
  0.5 * Real.sqrt (area.c0 * area.c0 + area.c1 * area.c1 + area.c2 * area.c2)

/-- `SphericalTriGrid::mappedElementArea` (ionosphere.h:130-152): the same
computation on the mapped corner positions, returning 0 whenever one of the
corners maps to the zero vector. -/
noncomputable def mappedElementArea (g : SphericalTriGrid) (elementIndex : ℕ) : ℝ :=
  let a := (g.node ((g.element elementIndex).corners 0)).xMapped
  let b := (g.node ((g.element elementIndex).corners 1)).xMapped
  let c := (g.node ((g.element elementIndex).corners 2)).xMapped
  if Real.sqrt (a.c0 * a.c0 + a.c1 * a.c1 + a.c2 * a.c2) = 0 ∨
     Real.sqrt (b.c0 * b.c0 + b.c1 * b.c1 + b.c2 * b.c2) = 0 ∨
     Real.sqrt (c.c0 * c.c0 + c.c1 * c.c1 + c.c2 * c.c2) = 0 then
    0
  else
    let e1 : Vec3 := ⟨b.c0 - c.c0, b.c1 - c.c1, b.c2 - c.c2⟩
    let e2 : Vec3 := ⟨c.c0 - a.c0, c.c1 - a.c1, c.c2 - a.c2⟩
    let area : Vec3 := ⟨e1.c1 * e2.c2 - e1.c2 * e2.c1,
                        e1.c2 * e2.c0 - e1.c0 * e2.c2,
                        e1.c0 * e2.c1 - e1.c1 * e2.c0⟩
    0.5 * Real.sqrt (area.c0 * area.c0 + area.c1 * area.c1 + area.c2 * area.c2)

/-- `SphericalTriGrid::nodeNeighbourArea` (ionosphere.h:154-163): loop
accumulating `elementArea` over the touching-element list prefix. -/
noncomputable def nodeNeighbourArea (g : SphericalTriGrid) (nodeIndex : ℕ) : ℝ :=
  let n := g.node nodeIndex
  (List.range n.numTouchingElements).foldl
    (fun area i => area + g.elementArea (n.touchingElements i)) 0

/-- Replace node `i` of the grid by `f` applied to it (in-place node update,
as done by the member functions mutating `nodes[i]`). -/
def updateNode (g : SphericalTriGrid) (i : ℕ) (f : Node → Node) :
    SphericalTriGrid :=
  { g with nodes := g.nodes.set i (f (g.node i)) }

end SphericalTriGrid

/-- Index of the first entry among the first `k` entries of `deps` that holds
`target` (the scan of the dependency-list prefix). -/
def findDepIndex (deps : ℕ → ℕ) (k : ℕ) (target : ℕ) : Option ℕ :=
  match k with
  | 0 => none
  | k + 1 =>
    match findDepIndex deps k target with
    | some i => some i
    | none => if deps k = target then some k else none

/-- Modelled from the spec: the per-node effect of
`SphericalTriGrid::addMatrixDependency`, whose body is only declared in the
sources (ionosphere.h:100).  Per spec sections 3 and 4.3, the dependency-list
prefix is scanned for `node2`; if an entry exists, `coeff` is accumulated
additively onto the stored forward (or, for `transposed = true`, transposed)
coefficient, otherwise a new entry for `node2` with coefficient `coeff` is
appended and the count incremented. -/
def depUpdate (node2 : ℕ) (coeff : ℝ) (transposed : Bool) (n : Node) : Node :=
  match findDepIndex n.dependingNodes n.numDepNodes node2 with
  | some i =>
    if transposed then
      { n with transposedCoeffs :=
          Function.update n.transposedCoeffs i (n.transposedCoeffs i + coeff) }
    else
      { n with dependingCoeffs :=
          Function.update n.dependingCoeffs i (n.dependingCoeffs i + coeff) }
  | none =>
    { n with
        numDepNodes := n.numDepNodes + 1,
        dependingNodes := Function.update n.dependingNodes n.numDepNodes node2,
        dependingCoeffs := Function.update n.dependingCoeffs n.numDepNodes
          (if transposed then 0 else coeff),
        transposedCoeffs := Function.update n.transposedCoeffs n.numDepNodes
          (if transposed then coeff else 0) }

namespace SphericalTriGrid

/-- Modelled from the spec: `SphericalTriGrid::addMatrixDependency`
(declared at ionosphere.h:100), applying `depUpdate` to `node1`. -/
def addMatrixDependency (g : SphericalTriGrid) (node1 node2 : ℕ) (coeff : ℝ)
    (transposed : Bool) : SphericalTriGrid :=
  g.updateNode node1 (depUpdate node2 coeff transposed)

end SphericalTriGrid

/-- The first `numDepNodes` entries of a node's dependency list hold pairwise
distinct target node indices. -/
def NoDupDeps (n : Node) : Prop :=
  ∀ i, i < n.numDepNodes → ∀ j, j < n.numDepNodes →
    n.dependingNodes i = n.dependingNodes j → i = j

instance decNoDupDeps (n : Node) : Decidable (NoDupDeps n) :=
  inferInstanceAs (Decidable (∀ i, i < n.numDepNodes → ∀ j, j < n.numDepNodes →
    n.dependingNodes i = n.dependingNodes j → i = j))

/-! ### Matrix-free solver loop and source-term offset (C6, C7) -/

/-- Modelled from the spec: the index of the field-aligned-current source
parameter among the `N_IONOSPHERE_PARAMETERS` named node-parameter slots
(the slot constants live in `common.h`, which is not in the sources; the
claims are independent of the concrete slot number). -/
def facSourceIndex : ℕ := 0

/-- Total area weight of the mesh: sum of `nodeNeighbourArea` over all
nodes. -/
noncomputable def totalArea (g : SphericalTriGrid) : ℝ :=
  ∑ n ∈ Finset.range g.nodes.length, g.nodeNeighbourArea n

/-- Area-weighted sum of the field-aligned-current source term over all
nodes of the mesh. -/
noncomputable def totalFAC (g : SphericalTriGrid) : ℝ :=
  ∑ n ∈ Finset.range g.nodes.length,
    g.nodeNeighbourArea n * (g.node n).parameters facSourceIndex

namespace SphericalTriGrid

/-- Modelled from the spec: `SphericalTriGrid::offset_FAC` (declared at
ionosphere.h:90, body not in the sources).  Per spec sections 4.5 and 8, it
subtracts the area-weighted global mean of the field-aligned-current source
term from every node, so that the net injected current over the whole mesh
is zero; a node's area weight is its `nodeNeighbourArea`. -/
noncomputable def offset_FAC (g : SphericalTriGrid) : SphericalTriGrid :=
  { g with nodes := g.nodes.map (fun nd =>
      { nd with
          parameters := Function.update nd.parameters facSourceIndex
            (nd.parameters facSourceIndex - totalFAC g / totalArea g) }) }

end SphericalTriGrid

/-- Modelled from the spec: the control flow of `SphericalTriGrid::solve`
(declared at ionosphere.h:105, body not in the sources).  Per spec sections
4.4 and 7(b), the preconditioned conjugate-gradient loop runs at most `fuel`
iterations (`Ionosphere::solverMaxIterations`, ionosphere.h:257); after each
iteration the relative residual is tested against the configured tolerance
and the loop stops at the first iteration that passes; running out the cap
returns the last iterate with a `false` convergence flag instead of aborting.
The single CG iteration and the residual functional are abstracted as the
parameters `step` and `resid`. -/
noncomputable def solveLoop (step : SphericalTriGrid → SphericalTriGrid)
    (resid : SphericalTriGrid → ℝ) (tol : ℝ) :
    ℕ → SphericalTriGrid → SphericalTriGrid × ℕ × Bool
  | 0, g => (g, 0, false)
  | fuel + 1, g =>
    let g' := step g
    if resid g' < tol then (g', 1, true)
    else
      let r := solveLoop step resid tol fuel g'
      (r.1, r.2.1 + 1, r.2.2)

/-- Modelled from the spec: `SphericalTriGrid::solve` entry point, running
the conjugate-gradient loop with the configured iteration cap
`solverMaxIterations` and returning the solved grid, the iteration count and
the convergence flag. -/
noncomputable def solve (step : SphericalTriGrid → SphericalTriGrid)
    (resid : SphericalTriGrid → ℝ) (tol : ℝ) (solverMaxIterations : ℕ)
    (g : SphericalTriGrid) : SphericalTriGrid × ℕ × Bool :=
  solveLoop step resid tol solverMaxIterations g

/-- A concrete grid with one established dependency (node 0 depends on node
7 with forward coefficient 1), used as test input. -/
noncomputable def gridDep : SphericalTriGrid :=
  { elements := []
    nodes := [{ defaultNode with
                  numDepNodes := 1,
                  dependingNodes := fun _ => 7,
                  dependingCoeffs := fun _ => 1 }] }

/-! Spec-side formulations of the geometry kernel (from spec.md section 4.1),
used to state the refinement claims C1 and C2 against the source
definitions above. -/

/-- Cross product of two 3-vectors (spec-side). -/
def crossProduct (u v : Vec3) : Vec3 :=
  ⟨u.c1 * v.c2 - u.c2 * v.c1,
   u.c2 * v.c0 - u.c0 * v.c2,
   u.c0 * v.c1 - u.c1 * v.c0⟩

/-- Componentwise difference of two 3-vectors (spec-side). -/
def vsub (u v : Vec3) : Vec3 := ⟨u.c0 - v.c0, u.c1 - v.c1, u.c2 - v.c2⟩

/-- Euclidean magnitude of a 3-vector (spec-side). -/
noncomputable def norm3 (u : Vec3) : ℝ := Real.sqrt (u.c0 ^ 2 + u.c1 ^ 2 + u.c2 ^ 2)

/-- Spec-side element area: half the magnitude of the cross product of the
two edge vectors `b - c` and `c - a` of the corners' sphere positions. -/
noncomputable def elementAreaSpec (g : SphericalTriGrid) (e : ℕ) : ℝ :=
  let a := (g.node ((g.element e).corners 0)).x
  let b := (g.node ((g.element e).corners 1)).x
  let c := (g.node ((g.element e).corners 2)).x
  (1 / 2) * norm3 (crossProduct (vsub b c) (vsub c a))

open Classical in
/-- Spec-side mapped element area: zero when any of the three corners has an
unmapped (exactly zero-vector) position, otherwise half the magnitude of the
cross product of the mapped edge vectors. -/
noncomputable def mappedElementAreaSpec (g : SphericalTriGrid) (e : ℕ) : ℝ :=
  let a := (g.node ((g.element e).corners 0)).xMapped
  let b := (g.node ((g.element e).corners 1)).xMapped
  let c := (g.node ((g.element e).corners 2)).xMapped
  if a = zeroVec ∨ b = zeroVec ∨ c = zeroVec then 0
  else (1 / 2) * norm3 (crossProduct (vsub b c) (vsub c a))

/-- A concrete one-element grid used as test input: a triangle of area 1 with
all three corners mapped to nonzero positions. -/
noncomputable def gridTri : SphericalTriGrid :=
  { elements := [⟨0, Fin.val⟩]
    nodes :=
      [{ defaultNode with x := ⟨0, -1, 0⟩, xMapped := ⟨0, -1, 0⟩,
                          numTouchingElements := 1, touchingElements := fun _ => 0 },
       { defaultNode with x := ⟨2, 0, 0⟩, xMapped := ⟨2, 0, 0⟩ },
       { defaultNode with x := ⟨0, 0, 1⟩, xMapped := ⟨0, 0, 1⟩ }] }

/-! ### Mesh construction and refinement model (C4)

The bodies of `initializeTetrahedron`, `subdivideElement`,
`updateConnectivity` and `addAllMatrixDependencies` (declared at
ionosphere.h:92-101) are not in the sources; the combinatorial part of the
mesh lifecycle is modelled from spec sections 4.2 and 4.3 below.  Node
positions are irrelevant to the counting claims and are omitted. -/

/-- Modelled from the spec: the mesh-construction state used by
`initializeTetrahedron` and `subdivideElement`.  Elements are corner-index
triples; `mid` memoizes the midpoint node inserted on each edge, realizing
the spec's midpoint deduplication that keeps the mesh watertight
(spec section 4.2). -/
structure MeshState where
  nodeCount : ℕ
  elems : List (ℕ × ℕ × ℕ)
  mid : List ((ℕ × ℕ) × ℕ)
deriving DecidableEq

/-- Canonical unordered-edge key. -/
def edgeKey (a b : ℕ) : ℕ × ℕ := if a ≤ b then (a, b) else (b, a)

/-- The recorded midpoint node of edge `{a, b}`, if one was inserted. -/
def lookupMid (st : MeshState) (a b : ℕ) : Option ℕ :=
  (st.mid.find? (fun e => e.1 == edgeKey a b)).map (fun e => e.2)

/-- Insert-or-reuse the midpoint node of edge `{a, b}` (the spec's
deduplication of midpoints shared with the neighbour across that edge). -/
def getOrCreateMid (st : MeshState) (a b : ℕ) : ℕ × MeshState :=
  match lookupMid st a b with
  | some m => (m, st)
  | none =>
    (st.nodeCount,
     { nodeCount := st.nodeCount + 1,
       elems := st.elems,
       mid := (edgeKey a b, st.nodeCount) :: st.mid })

/-- Modelled from the spec: `SphericalTriGrid::subdivideElement`
(ionosphere.h:96): replace element `e = (a,b,c)` by its four children,
inserting the midpoint node of each edge with deduplication.  The storage
order of the element list is a modelling choice; the subdivided element is
selected by its current index. -/
def subdivideMeshElement (st : MeshState) (e : ℕ) : MeshState :=
  match st.elems[e]? with
  | none => st
  | some (a, b, c) =>
    let r1 := getOrCreateMid st a b
    let r2 := getOrCreateMid r1.2 b c
    let r3 := getOrCreateMid r2.2 c a
    { r3.2 with
        elems := (r3.2.elems.eraseIdx e) ++
          [(a, r1.1, r3.1), (b, r2.1, r1.1), (c, r3.1, r2.1),
           (r1.1, r2.1, r3.1)] }

/-- Modelled from the spec: `initializeTetrahedron` (ionosphere.h:93): a base
tetrahedron of 4 nodes spanning 4 triangular faces. -/
def initialTetrahedron : MeshState :=
  { nodeCount := 4,
    elems := [(0, 1, 2), (0, 1, 3), (0, 2, 3), (1, 2, 3)],
    mid := [] }

/-- Whether node `n` is a corner of triangle `t`. -/
def inTriangle (n : ℕ) (t : ℕ × ℕ × ℕ) : Bool :=
  n == t.1 || n == t.2.1 || n == t.2.2

/-- Modelled from the spec: the touching-element count that
`updateConnectivity` (ionosphere.h:92) derives for node `n` from the
authoritative element corner arrays (spec section 4.2: node adjacency is
derived from the elements, never edited directly). -/
def touchingCount (st : MeshState) (n : ℕ) : ℕ :=
  (st.elems.filter (inTriangle n)).length

/-- Modelled from the spec: the number of depending nodes that
`addAllMatrixDependencies` (ionosphere.h:101) records for node `n`: per spec
section 4.3 it visits the elements touching `n` and adds one dependency per
distinct other node sharing any of those elements (coefficients for repeated
pairs accumulate instead of appending, per C5). -/
def depCount (st : MeshState) (n : ℕ) : ℕ :=
  (((st.elems.filter (inTriangle n)).foldr
      (fun t acc => t.1 :: t.2.1 :: t.2.2 :: acc) []).filter
    (fun u => u != n)).dedup.length

/-- The failing refinement sequence for C4: subdivide the two tetrahedron
faces sharing edge `{0,1}` (their common midpoint is node 4), then on one
side the two corner children `(0,4,6)` and `(1,5,4)`, and on the other side
the central child `(4,7,8)`. -/
def c4FailState : MeshState :=
  subdivideMeshElement
    (subdivideMeshElement
      (subdivideMeshElement
        (subdivideMeshElement
          (subdivideMeshElement initialTetrahedron 0) 0) 2) 2) 7

/-! ## Theorems: velocity block container and velocity mesh -/

/-- Unfolding lemma for the successful branch of `recapacitate`. -/
theorem recapacitate_of_le (wid3 npar : ℕ) (c : VelocityBlockContainer)
    (newCapacity : ℕ) (h : c.numberOfBlocks ≤ newCapacity) :
    c.recapacitate wid3 npar newCapacity =
      (true,
       { currentCapacity := newCapacity,
         numberOfBlocks := c.numberOfBlocks,
         block_data := (List.range (newCapacity * wid3)).map
           (fun i => if i < c.numberOfBlocks * wid3 then c.block_data.getD i 0 else 0),
         parameters := (List.range (newCapacity * npar)).map
           (fun i => if i < c.numberOfBlocks * npar then c.parameters.getD i 0 else 0) }) := by
  unfold VelocityBlockContainer.recapacitate
  rw [if_neg (not_lt.mpr h)]

/-- C8: `recapacitate(c)` returns `false` and leaves the container unchanged
when `c` is below the current block count; otherwise it returns `true`, sets
the capacity to exactly `c`, keeps the block count, and preserves the stored
data and parameters of all existing blocks. -/
theorem recapacitate_spec (wid3 npar : ℕ) (c : VelocityBlockContainer)
    (newCapacity : ℕ) :
    (newCapacity < c.numberOfBlocks →
      c.recapacitate wid3 npar newCapacity = (false, c)) ∧
    (c.numberOfBlocks ≤ newCapacity →
      (c.recapacitate wid3 npar newCapacity).1 = true ∧
      (c.recapacitate wid3 npar newCapacity).2.currentCapacity = newCapacity ∧
      (c.recapacitate wid3 npar newCapacity).2.numberOfBlocks = c.numberOfBlocks ∧
      (∀ i, i < c.numberOfBlocks * wid3 →
        (c.recapacitate wid3 npar newCapacity).2.block_data.getD i 0 =
          c.block_data.getD i 0) ∧
      (∀ i, i < c.numberOfBlocks * npar →
        (c.recapacitate wid3 npar newCapacity).2.parameters.getD i 0 =
          c.parameters.getD i 0)) := by
  constructor
  · intro h
    unfold VelocityBlockContainer.recapacitate
    rw [if_pos h]
  · intro h
    rw [recapacitate_of_le wid3 npar c newCapacity h]
    refine ⟨rfl, rfl, rfl, ?_, ?_⟩
    · intro i hi
      have hilt : i < newCapacity * wid3 :=
        lt_of_lt_of_le hi (Nat.mul_le_mul_right _ h)
      rw [List.getD_eq_getElem?_getD, List.getElem?_map, List.getElem?_range hilt]
      simp [hi]
    · intro i hi
      have hilt : i < newCapacity * npar :=
        lt_of_lt_of_le hi (Nat.mul_le_mul_right _ h)
      rw [List.getD_eq_getElem?_getD, List.getElem?_map, List.getElem?_range hilt]
      simp [hi]

/-- A one-block container used as concrete test input. -/
def vbcOne : VelocityBlockContainer := ⟨1, 1, [3], [4]⟩

/-- An empty container used as concrete test input. -/
def vbcEmpty : VelocityBlockContainer := ⟨0, 0, [], []⟩

/-- A one-block container with spare capacity used as concrete test input. -/
def vbcSpare : VelocityBlockContainer := ⟨2, 1, [5], [7]⟩

/-- Witness for C8 at a concrete container on both branches. -/
theorem recapacitate_spec_witness :
    vbcOne.recapacitate 1 1 0 = (false, vbcOne) ∧
    (vbcOne.recapacitate 1 1 2).1 = true ∧
    (vbcOne.recapacitate 1 1 2).2.currentCapacity = 2 ∧
    (vbcOne.recapacitate 1 1 2).2.numberOfBlocks = 1 ∧
    (vbcOne.recapacitate 1 1 2).2.block_data.getD 0 0 = vbcOne.block_data.getD 0 0 := by
  have h2 := (recapacitate_spec 1 1 vbcOne 2).2 (by decide)
  exact ⟨(recapacitate_spec 1 1 vbcOne 0).1 (by decide),
    h2.1, h2.2.1, h2.2.2.1, h2.2.2.2.1 0 (by decide)⟩

/-- C10: `pop()` on an empty container is a no-op; on a non-empty container it
decreases the block count by exactly one and changes nothing else. -/
theorem pop_spec (c : VelocityBlockContainer) :
    (c.numberOfBlocks = 0 → c.pop = c) ∧
    (c.numberOfBlocks ≠ 0 →
      c.pop.numberOfBlocks + 1 = c.numberOfBlocks ∧
      c.pop.currentCapacity = c.currentCapacity ∧
      c.pop.block_data = c.block_data ∧
      c.pop.parameters = c.parameters) := by
  constructor
  · intro h
    simp [VelocityBlockContainer.pop, h]
  · intro h
    unfold VelocityBlockContainer.pop
    rw [if_neg h]
    refine ⟨?_, rfl, rfl, rfl⟩
    show c.numberOfBlocks - 1 + 1 = c.numberOfBlocks
    omega

/-- Witness for C10 at concrete containers on both branches. -/
theorem pop_spec_witness :
    vbcEmpty.pop = vbcEmpty ∧
    vbcSpare.pop.numberOfBlocks + 1 = 1 ∧
    vbcSpare.pop.currentCapacity = 2 ∧
    vbcSpare.pop.block_data = [5] ∧
    vbcSpare.pop.parameters = [7] := by
  have h2 := (pop_spec vbcSpare).2 (by decide)
  exact ⟨(pop_spec vbcEmpty).1 rfl, h2.1, h2.2.1, h2.2.2.1, h2.2.2.2⟩

/-- C9 (amended): for a mesh set up by `initialize` whose
`gridLength[0]*gridLength[1]` product does not overflow `uint32_t`,
decomposing any in-range global ID with `getIndices` gives refinement level 0
and in-range (non-error) indices, and re-encoding them with `getGlobalID`
returns the original global ID.  Without the no-overflow condition the
round-trip fails: the `k` divisor wraps (velocity_mesh_old.h:157). -/
theorem getIndices_getGlobalID_roundtrip (meshLimits : Fin 6 → ℝ)
    (gridLength blockLength : Fin 3 → ℕ) (m : VelocityMesh)
    (hm : m = VelocityMesh.initializeMesh meshLimits gridLength blockLength)
    (hgl : ∀ d, gridLength d < 2 ^ 32)
    (hp : gridLength 0 * gridLength 1 < 2 ^ 32) (g : ℕ)
    (hg : g < m.max_velocity_blocks) :
    (m.getIndices g).1 = 0 ∧
    (m.getIndices g).2.1 ≠ error_velocity_block_index ∧
    (m.getIndices g).2.2.1 ≠ error_velocity_block_index ∧
    (m.getIndices g).2.2.2 ≠ error_velocity_block_index ∧
    m.getGlobalID (m.getIndices g).1 (m.getIndices g).2.1 (m.getIndices g).2.2.1
      (m.getIndices g).2.2.2 = g := by
  subst hm
  have hmax : (VelocityMesh.initializeMesh meshLimits gridLength blockLength).max_velocity_blocks
      = (gridLength 0 * gridLength 1 * gridLength 2) % 2 ^ 32 := rfl
  have hGL : (VelocityMesh.initializeMesh meshLimits gridLength blockLength).gridLength
      = gridLength := rfl
  rw [hmax] at hg
  have hprod : g < gridLength 0 * gridLength 1 * gridLength 2 :=
    lt_of_lt_of_le hg (Nat.mod_le _ _)
  have hP : 0 < gridLength 0 * gridLength 1 * gridLength 2 :=
    (Nat.zero_le g).trans_lt hprod
  have h01 : gridLength 0 * gridLength 1 ≠ 0 :=
    (Nat.mul_ne_zero_iff.mp (Nat.pos_iff_ne_zero.mp hP)).1
  have h0 : 0 < gridLength 0 :=
    Nat.pos_of_ne_zero (Nat.mul_ne_zero_iff.mp h01).1
  have h1 : 0 < gridLength 1 :=
    Nat.pos_of_ne_zero (Nat.mul_ne_zero_iff.mp h01).2
  have h2 : 0 < gridLength 2 :=
    Nat.pos_of_ne_zero (Nat.mul_ne_zero_iff.mp (Nat.pos_iff_ne_zero.mp hP)).2
  have hi : g % gridLength 0 < gridLength 0 := Nat.mod_lt _ h0
  have hj : (g / gridLength 0) % gridLength 1 < gridLength 1 := Nat.mod_lt _ h1
  have hk : g / (gridLength 0 * gridLength 1) < gridLength 2 := by
    rw [Nat.div_lt_iff_lt_mul (Nat.pos_of_ne_zero h01)]
    rw [Nat.mul_comm] at hprod
    exact hprod
  have hgi : (VelocityMesh.initializeMesh meshLimits gridLength blockLength).getIndices g =
      (0, g % gridLength 0, (g / gridLength 0) % gridLength 1,
          g / (gridLength 0 * gridLength 1)) := by
    unfold VelocityMesh.getIndices
    rw [hmax, hGL, if_neg (not_le.mpr hg), Nat.mod_eq_of_lt hp]
  rw [hgi]
  refine ⟨rfl, ?_, ?_, ?_, ?_⟩
  · show g % gridLength 0 ≠ error_velocity_block_index
    have := hgl 0
    unfold error_velocity_block_index
    omega
  · show (g / gridLength 0) % gridLength 1 ≠ error_velocity_block_index
    have := hgl 1
    unfold error_velocity_block_index
    omega
  · show g / (gridLength 0 * gridLength 1) ≠ error_velocity_block_index
    have := hgl 2
    unfold error_velocity_block_index
    omega
  · show (VelocityMesh.initializeMesh meshLimits gridLength blockLength).getGlobalID 0
      (g % gridLength 0) ((g / gridLength 0) % gridLength 1)
      (g / (gridLength 0 * gridLength 1)) = g
    unfold VelocityMesh.getGlobalID
    rw [hGL, if_neg (by push_neg; exact ⟨hi, hj, hk⟩)]
    have e1 := Nat.mod_add_div g (gridLength 0)
    have e2 := Nat.mod_add_div (g / gridLength 0) (gridLength 1)
    have e3 : g / gridLength 0 / gridLength 1 = g / (gridLength 0 * gridLength 1) :=
      Nat.div_div_eq_div_mul g (gridLength 0) (gridLength 1)
    have hsum : g % gridLength 0 + (g / gridLength 0 % gridLength 1) * gridLength 0 +
        g / (gridLength 0 * gridLength 1) * gridLength 0 * gridLength 1 = g := by
      have hrw : g % gridLength 0 + (g / gridLength 0 % gridLength 1) * gridLength 0 +
          g / (gridLength 0 * gridLength 1) * gridLength 0 * gridLength 1 =
          g % gridLength 0 +
            gridLength 0 * (g / gridLength 0 % gridLength 1 +
              gridLength 1 * (g / gridLength 0 / gridLength 1)) := by
        rw [e3]; ring
      rw [hrw, e2, e1]
    rw [hsum]
    have hglt : g < 2 ^ 32 := lt_of_lt_of_le hg (Nat.le_of_lt (Nat.mod_lt _ (by norm_num)))
    exact Nat.mod_eq_of_lt hglt

/-! ## Theorems: ionosphere geometry kernel -/

/-- The magnitude test used by `mappedElementArea` detects exactly the
zero-vector sentinel. -/
theorem sqrt_sum_sq_eq_zero_iff (u : Vec3) :
    Real.sqrt (u.c0 * u.c0 + u.c1 * u.c1 + u.c2 * u.c2) = 0 ↔ u = zeroVec := by
  rw [show u.c0 * u.c0 + u.c1 * u.c1 + u.c2 * u.c2
      = u.c0 ^ 2 + u.c1 ^ 2 + u.c2 ^ 2 by ring]
  constructor
  · intro h
    have hnn : (0 : ℝ) ≤ u.c0 ^ 2 + u.c1 ^ 2 + u.c2 ^ 2 := by positivity
    have h0 : u.c0 ^ 2 + u.c1 ^ 2 + u.c2 ^ 2 = 0 := (Real.sqrt_eq_zero hnn).mp h
    have h1 : u.c0 ^ 2 = 0 := by nlinarith [sq_nonneg u.c1, sq_nonneg u.c2]
    have h2 : u.c1 ^ 2 = 0 := by nlinarith [sq_nonneg u.c0, sq_nonneg u.c2]
    have h3 : u.c2 ^ 2 = 0 := by nlinarith [sq_nonneg u.c0, sq_nonneg u.c1]
    exact Vec3.ext (pow_eq_zero_iff two_ne_zero |>.mp h1)
      (pow_eq_zero_iff two_ne_zero |>.mp h2)
      (pow_eq_zero_iff two_ne_zero |>.mp h3)
  · intro h
    rw [h]
    show Real.sqrt ((0 : ℝ) ^ 2 + (0 : ℝ) ^ 2 + (0 : ℝ) ^ 2) = 0
    simp

/-- C2: for a valid element index, `elementArea` computes half the magnitude
of the cross product of the edge vectors `b - c` and `c - a` of the corners'
sphere positions, and the result is nonnegative. -/
theorem elementArea_spec (g : SphericalTriGrid) (e : ℕ)
    (he : e < g.elements.length) :
    g.elementArea e = elementAreaSpec g e ∧ 0 ≤ g.elementArea e := by
  constructor
  · simp only [SphericalTriGrid.elementArea, elementAreaSpec, norm3,
      crossProduct, vsub]
    rw [show (0.5 : ℝ) = 1 / 2 by norm_num]
    congr 1
    ring
  · simp only [SphericalTriGrid.elementArea]
    positivity

/-- Witness for C2 at the concrete one-element grid. -/
theorem elementArea_spec_witness :
    gridTri.elementArea 0 = elementAreaSpec gridTri 0 ∧
    0 ≤ gridTri.elementArea 0 :=
  elementArea_spec gridTri 0 (by decide)

/-- C1: for a valid element index, `mappedElementArea` returns 0 exactly when
some corner's mapped position is the zero vector, and otherwise half the
magnitude of the cross product of the mapped edge vectors `b - c` and
`c - a`. -/
theorem mappedElementArea_spec (g : SphericalTriGrid) (e : ℕ)
    (he : e < g.elements.length) :
    g.mappedElementArea e = mappedElementAreaSpec g e := by
  simp only [SphericalTriGrid.mappedElementArea, mappedElementAreaSpec]
  have hiff : (Real.sqrt ((g.node ((g.element e).corners 0)).xMapped.c0 *
        (g.node ((g.element e).corners 0)).xMapped.c0 +
        (g.node ((g.element e).corners 0)).xMapped.c1 *
        (g.node ((g.element e).corners 0)).xMapped.c1 +
        (g.node ((g.element e).corners 0)).xMapped.c2 *
        (g.node ((g.element e).corners 0)).xMapped.c2) = 0 ∨
      Real.sqrt ((g.node ((g.element e).corners 1)).xMapped.c0 *
        (g.node ((g.element e).corners 1)).xMapped.c0 +
        (g.node ((g.element e).corners 1)).xMapped.c1 *
        (g.node ((g.element e).corners 1)).xMapped.c1 +
        (g.node ((g.element e).corners 1)).xMapped.c2 *
        (g.node ((g.element e).corners 1)).xMapped.c2) = 0 ∨
      Real.sqrt ((g.node ((g.element e).corners 2)).xMapped.c0 *
        (g.node ((g.element e).corners 2)).xMapped.c0 +
        (g.node ((g.element e).corners 2)).xMapped.c1 *
        (g.node ((g.element e).corners 2)).xMapped.c1 +
        (g.node ((g.element e).corners 2)).xMapped.c2 *
        (g.node ((g.element e).corners 2)).xMapped.c2) = 0) ↔
      ((g.node ((g.element e).corners 0)).xMapped = zeroVec ∨
       (g.node ((g.element e).corners 1)).xMapped = zeroVec ∨
       (g.node ((g.element e).corners 2)).xMapped = zeroVec) :=
    or_congr (sqrt_sum_sq_eq_zero_iff _)
      (or_congr (sqrt_sum_sq_eq_zero_iff _) (sqrt_sum_sq_eq_zero_iff _))
  by_cases h : ((g.node ((g.element e).corners 0)).xMapped = zeroVec ∨
      (g.node ((g.element e).corners 1)).xMapped = zeroVec ∨
      (g.node ((g.element e).corners 2)).xMapped = zeroVec)
  · rw [if_pos (hiff.mpr h), if_pos h]
  · rw [if_neg (fun hc => h (hiff.mp hc)), if_neg h]
    simp only [norm3, crossProduct, vsub]
    rw [show (0.5 : ℝ) = 1 / 2 by norm_num]
    congr 1
    ring

/-- Witness for C1 at the concrete one-element grid. -/
theorem mappedElementArea_spec_witness :
    gridTri.mappedElementArea 0 = mappedElementAreaSpec gridTri 0 :=
  mappedElementArea_spec gridTri 0 (by decide)

/-- Folding `+ f i` over `List.range n` is the finite sum of `f`. -/
theorem foldl_range_add (f : ℕ → ℝ) (s : ℝ) (n : ℕ) :
    (List.range n).foldl (fun area i => area + f i) s =
      s + ∑ i ∈ Finset.range n, f i := by
  induction n generalizing s with
  | zero => simp
  | succ n ih =>
    rw [List.range_succ, List.foldl_append, ih, Finset.sum_range_succ]
    simp [add_assoc]

/-- C3: for a valid node whose touching-element entries are valid element
indices, `nodeNeighbourArea` is the sum of `elementArea` over exactly the
first `numTouchingElements` entries of the touching-element list. -/
theorem nodeNeighbourArea_spec (g : SphericalTriGrid) (ni : ℕ)
    (hn : ni < g.nodes.length)
    (hv : ∀ i, i < (g.node ni).numTouchingElements →
      (g.node ni).touchingElements i < g.elements.length) :
    g.nodeNeighbourArea ni =
      ∑ i ∈ Finset.range (g.node ni).numTouchingElements,
        g.elementArea ((g.node ni).touchingElements i) := by
  show (List.range (g.node ni).numTouchingElements).foldl
      (fun area i => area + g.elementArea ((g.node ni).touchingElements i)) 0 = _
  rw [foldl_range_add, zero_add]

/-- Witness for C3 at the concrete one-element grid. -/
theorem nodeNeighbourArea_spec_witness :
    gridTri.nodeNeighbourArea 0 =
      ∑ i ∈ Finset.range (gridTri.node 0).numTouchingElements,
        gridTri.elementArea ((gridTri.node 0).touchingElements i) :=
  nodeNeighbourArea_spec gridTri 0 (by decide) (by decide)

/-! ## Theorems: dependency-list bookkeeping (C5) -/

/-- One-step unfolding of the dependency scan. -/
theorem findDepIndex_succ (deps : ℕ → ℕ) (k target : ℕ) :
    findDepIndex deps (k + 1) target =
      match findDepIndex deps k target with
      | some i => some i
      | none => if deps k = target then some k else none := rfl

/-- Soundness of the dependency scan: a found index is in range and holds the
target. -/
theorem findDepIndex_some (deps : ℕ → ℕ) (k target i : ℕ)
    (h : findDepIndex deps k target = some i) : i < k ∧ deps i = target := by
  induction k with
  | zero => simp [findDepIndex] at h
  | succ k ih =>
    rw [findDepIndex_succ] at h
    cases hrec : findDepIndex deps k target with
    | some j =>
      rw [hrec] at h
      have hji : j = i := Option.some.inj h
      subst hji
      obtain ⟨hj, hd⟩ := ih hrec
      exact ⟨Nat.lt_succ_of_lt hj, hd⟩
    | none =>
      rw [hrec] at h
      have h' : (if deps k = target then some k else none) = some i := h
      by_cases hc : deps k = target
      · rw [if_pos hc] at h'
        have hki : k = i := Option.some.inj h'
        subst hki
        exact ⟨Nat.lt_succ_self _, hc⟩
      · rw [if_neg hc] at h'
        exact Option.noConfusion h'

/-- Completeness of the dependency scan: if the target occurs in the prefix,
the scan finds some index. -/
theorem findDepIndex_isSome (deps : ℕ → ℕ) (k target i : ℕ)
    (hik : i < k) (hd : deps i = target) :
    ∃ j, findDepIndex deps k target = some j := by
  induction k with
  | zero => omega
  | succ k ih =>
    rw [findDepIndex_succ]
    cases hrec : findDepIndex deps k target with
    | some j => exact ⟨j, rfl⟩
    | none =>
      by_cases hik' : i < k
      · obtain ⟨j, hj⟩ := ih hik'
        rw [hrec] at hj
        exact absurd hj (by simp)
      · have hik'' : i = k := by omega
        rw [hik''] at hd
        refine ⟨k, ?_⟩
        show (if deps k = target then some k else none) = some k
        rw [if_pos hd]

/-- A failed dependency scan means the target occurs nowhere in the prefix. -/
theorem findDepIndex_none (deps : ℕ → ℕ) (k target : ℕ)
    (h : findDepIndex deps k target = none) :
    ∀ i, i < k → deps i ≠ target := by
  intro i hik hd
  obtain ⟨j, hj⟩ := findDepIndex_isSome deps k target i hik hd
  rw [h] at hj
  exact Option.noConfusion hj

/-- Reading back the updated slot of `updateNode`. -/
theorem node_updateNode_self (g : SphericalTriGrid) (i : ℕ) (f : Node → Node)
    (h : i < g.nodes.length) : (g.updateNode i f).node i = f (g.node i) := by
  show (g.nodes.set i (f (g.node i))).getD i defaultNode = f (g.node i)
  rw [List.getD_eq_getElem?_getD, List.getElem?_set_eq_of_lt _ h]
  rfl

/-- `updateNode` leaves every other slot unchanged. -/
theorem node_updateNode_other (g : SphericalTriGrid) (i : ℕ) (f : Node → Node)
    (k : ℕ) (h : k ≠ i) : (g.updateNode i f).node k = g.node k := by
  show (g.nodes.set i (f (g.node i))).getD k defaultNode = g.nodes.getD k defaultNode
  rw [List.getD_eq_getElem?_getD, List.getElem?_set_ne (Ne.symm h),
    ← List.getD_eq_getElem?_getD]

/-- `depUpdate` on a hit accumulates onto the found slot. -/
theorem depUpdate_found (n : Node) (node2 : ℕ) (coeff : ℝ) (tr : Bool) (i0 : ℕ)
    (hfd : findDepIndex n.dependingNodes n.numDepNodes node2 = some i0) :
    depUpdate node2 coeff tr n =
      if tr then
        { n with transposedCoeffs :=
            Function.update n.transposedCoeffs i0 (n.transposedCoeffs i0 + coeff) }
      else
        { n with dependingCoeffs :=
            Function.update n.dependingCoeffs i0 (n.dependingCoeffs i0 + coeff) } := by
  unfold depUpdate
  rw [hfd]

/-- `depUpdate` on a miss appends a fresh entry. -/
theorem depUpdate_notfound (n : Node) (node2 : ℕ) (coeff : ℝ) (tr : Bool)
    (hfd : findDepIndex n.dependingNodes n.numDepNodes node2 = none) :
    depUpdate node2 coeff tr n =
      { n with
          numDepNodes := n.numDepNodes + 1,
          dependingNodes := Function.update n.dependingNodes n.numDepNodes node2,
          dependingCoeffs := Function.update n.dependingCoeffs n.numDepNodes
            (if tr then 0 else coeff),
          transposedCoeffs := Function.update n.transposedCoeffs n.numDepNodes
            (if tr then coeff else 0) } := by
  unfold depUpdate
  rw [hfd]

/-- C5: `addMatrixDependency` keeps the dependency list duplicate-free,
touches no other node, and when a dependency of `node1` on `node2` already
exists it accumulates `coeff` onto the stored coefficient for that pair
(leaving the entry count and the target list unchanged) instead of appending
a second entry. -/
theorem addMatrixDependency_spec (g : SphericalTriGrid) (node1 node2 : ℕ)
    (coeff : ℝ) (transposed : Bool) (g' : SphericalTriGrid)
    (hg' : g' = g.addMatrixDependency node1 node2 coeff transposed)
    (h1 : node1 < g.nodes.length) (hnd : NoDupDeps (g.node node1)) :
    NoDupDeps (g'.node node1) ∧
    (∀ k, k ≠ node1 → g'.node k = g.node k) ∧
    (∀ i, i < (g.node node1).numDepNodes →
      (g.node node1).dependingNodes i = node2 →
      (g'.node node1).numDepNodes = (g.node node1).numDepNodes ∧
      (g'.node node1).dependingNodes = (g.node node1).dependingNodes ∧
      (transposed = true →
        (g'.node node1).transposedCoeffs i =
          (g.node node1).transposedCoeffs i + coeff ∧
        (g'.node node1).dependingCoeffs = (g.node node1).dependingCoeffs) ∧
      (transposed = false →
        (g'.node node1).dependingCoeffs i =
          (g.node node1).dependingCoeffs i + coeff ∧
        (g'.node node1).transposedCoeffs = (g.node node1).transposedCoeffs)) := by
  subst hg'
  have hn1 : (g.addMatrixDependency node1 node2 coeff transposed).node node1
      = depUpdate node2 coeff transposed (g.node node1) :=
    node_updateNode_self g node1 _ h1
  refine ⟨?_, ?_, ?_⟩
  · -- the updated node's dependency list stays duplicate-free
    rw [hn1]
    cases hfd : findDepIndex (g.node node1).dependingNodes
        (g.node node1).numDepNodes node2 with
    | some i0 =>
      rw [depUpdate_found _ _ _ _ _ hfd]
      cases transposed
      · rw [if_neg Bool.false_ne_true]
        exact hnd
      · rw [if_pos rfl]
        exact hnd
    | none =>
      rw [depUpdate_notfound _ _ _ _ hfd]
      have hnone := findDepIndex_none _ _ _ hfd
      intro i hi j hj hEq
      have hi' : i < (g.node node1).numDepNodes + 1 := hi
      have hj' : j < (g.node node1).numDepNodes + 1 := hj
      have hEq' : Function.update (g.node node1).dependingNodes
            (g.node node1).numDepNodes node2 i =
          Function.update (g.node node1).dependingNodes
            (g.node node1).numDepNodes node2 j := hEq
      rcases Nat.lt_succ_iff_lt_or_eq.mp hi' with hilt | hieq <;>
        rcases Nat.lt_succ_iff_lt_or_eq.mp hj' with hjlt | hjeq
      · rw [Function.update_noteq (Nat.ne_of_lt hilt) _ _,
          Function.update_noteq (Nat.ne_of_lt hjlt) _ _] at hEq'
        exact hnd i hilt j hjlt hEq'
      · rw [Function.update_noteq (Nat.ne_of_lt hilt) _ _, hjeq,
          Function.update_same _ _ _] at hEq'
        exact absurd hEq' (hnone i hilt)
      · rw [Function.update_noteq (Nat.ne_of_lt hjlt) _ _, hieq,
          Function.update_same _ _ _] at hEq'
        exact absurd hEq'.symm (hnone j hjlt)
      · omega
  · intro k hk
    exact node_updateNode_other g node1 _ k hk
  · intro i hi hdep
    cases hfd : findDepIndex (g.node node1).dependingNodes
        (g.node node1).numDepNodes node2 with
    | none => exact absurd hdep (findDepIndex_none _ _ _ hfd i hi)
    | some i0 =>
      obtain ⟨hi0lt, hi0dep⟩ := findDepIndex_some _ _ _ _ hfd
      have hii0 : i0 = i := hnd i0 hi0lt i hi (hi0dep.trans hdep.symm)
      subst hii0
      rw [hn1, depUpdate_found _ _ _ _ _ hfd]
      cases transposed
      · rw [if_neg Bool.false_ne_true]
        exact ⟨rfl, rfl,
          fun htt => Bool.noConfusion htt,
          fun _ => ⟨Function.update_same _ _ _, rfl⟩⟩
      · rw [if_pos rfl]
        exact ⟨rfl, rfl,
          fun _ => ⟨Function.update_same _ _ _, rfl⟩,
          fun hff => Bool.noConfusion hff⟩

/-- Witness for C5 at a concrete grid with an existing dependency entry. -/
theorem addMatrixDependency_spec_witness :
    NoDupDeps ((gridDep.addMatrixDependency 0 7 2 false).node 0) ∧
    (gridDep.addMatrixDependency 0 7 2 false).node 1 = gridDep.node 1 ∧
    ((gridDep.addMatrixDependency 0 7 2 false).node 0).numDepNodes =
      (gridDep.node 0).numDepNodes ∧
    ((gridDep.addMatrixDependency 0 7 2 false).node 0).dependingNodes =
      (gridDep.node 0).dependingNodes ∧
    ((gridDep.addMatrixDependency 0 7 2 false).node 0).dependingCoeffs 0 =
      (gridDep.node 0).dependingCoeffs 0 + 2 := by
  obtain ⟨hA, hB, hC⟩ :=
    addMatrixDependency_spec gridDep 0 7 2 false _ rfl (by decide) (by decide)
  obtain ⟨hN, hD, _, hF⟩ := hC 0 (by decide) (by decide)
  exact ⟨hA, hB 1 (by decide), hN, hD, (hF rfl).1⟩

/-! ## Theorems: adjacency capacity bounds (C4) -/

/-- C4 failing input evaluated: after subdividing the two tetrahedron faces
sharing edge `{0,1}`, the corner children `(0,4,6)` and `(1,5,4)` on one side
and the central child `(4,7,8)` on the other, node 4 (the midpoint of edge
`{0,1}`) touches 6 elements — still within `MAX_TOUCHING_ELEMENTS` — but
those elements' corners comprise 12 distinct other nodes, so the
dependency-graph construction needs 12 depending-node entries, exceeding
`MAX_DEPENDING_NODES = 10`. -/
theorem c4_dependency_overflow :
    touchingCount c4FailState 4 = 6 ∧
    touchingCount c4FailState 4 ≤ MAX_TOUCHING_ELEMENTS ∧
    depCount c4FailState 4 = 12 ∧
    MAX_DEPENDING_NODES < depCount c4FailState 4 := by decide

/-! ## Theorems: matrix-free solver control flow (C6) -/

/-- Base-case unfolding of the solver loop. -/
theorem solveLoop_zero (step : SphericalTriGrid → SphericalTriGrid)
    (resid : SphericalTriGrid → ℝ) (tol : ℝ) (g : SphericalTriGrid) :
    solveLoop step resid tol 0 g = (g, 0, false) := rfl

/-- Step-case unfolding of the solver loop. -/
theorem solveLoop_succ (step : SphericalTriGrid → SphericalTriGrid)
    (resid : SphericalTriGrid → ℝ) (tol : ℝ) (fuel : ℕ) (g : SphericalTriGrid) :
    solveLoop step resid tol (fuel + 1) g =
      if resid (step g) < tol then (step g, 1, true)
      else ((solveLoop step resid tol fuel (step g)).1,
            (solveLoop step resid tol fuel (step g)).2.1 + 1,
            (solveLoop step resid tol fuel (step g)).2.2) := rfl

/-- Full characterization of the solver loop: the result is the
iteration-count-fold of the step function, the count never exceeds the fuel,
the flag reports convergence, a `false` flag means the cap was exhausted, and
the loop stopped at the first passing residual. -/
theorem solveLoop_spec (step : SphericalTriGrid → SphericalTriGrid)
    (resid : SphericalTriGrid → ℝ) (tol : ℝ) :
    ∀ (fuel : ℕ) (g : SphericalTriGrid),
    (solveLoop step resid tol fuel g).1 =
      step^[(solveLoop step resid tol fuel g).2.1] g ∧
    (solveLoop step resid tol fuel g).2.1 ≤ fuel ∧
    ((solveLoop step resid tol fuel g).2.2 = true →
      resid (solveLoop step resid tol fuel g).1 < tol) ∧
    ((solveLoop step resid tol fuel g).2.2 = false →
      (solveLoop step resid tol fuel g).2.1 = fuel) ∧
    (∀ k, 1 ≤ k → k < (solveLoop step resid tol fuel g).2.1 →
      tol ≤ resid (step^[k] g)) ∧
    ((solveLoop step resid tol fuel g).2.2 = false →
      ∀ k, 1 ≤ k → k ≤ fuel → tol ≤ resid (step^[k] g)) := by
  intro fuel
  induction fuel with
  | zero =>
    intro g
    refine ⟨rfl, Nat.zero_le _, fun h => Bool.noConfusion h, fun _ => rfl, ?_, ?_⟩
    · intro k hk1 hk0
      exact absurd (show k < 0 from hk0) (by omega)
    · intro _ k hk1 hk0
      exact absurd (show k ≤ 0 from hk0) (by omega)
  | succ fuel ih =>
    intro g
    by_cases hres : resid (step g) < tol
    · have hL : solveLoop step resid tol (fuel + 1) g = (step g, 1, true) := by
        rw [solveLoop_succ, if_pos hres]
      rw [hL]
      refine ⟨?_, ?_, ?_, ?_, ?_, ?_⟩
      · exact (congrFun (Function.iterate_one step) g).symm
      · show 1 ≤ fuel + 1
        omega
      · exact fun _ => hres
      · exact fun h => Bool.noConfusion (show true = false from h)
      · intro k hk1 hklt
        exact absurd (show k < 1 from hklt) (by omega)
      · exact fun h => Bool.noConfusion (show true = false from h)
    · have hL : solveLoop step resid tol (fuel + 1) g =
          ((solveLoop step resid tol fuel (step g)).1,
           (solveLoop step resid tol fuel (step g)).2.1 + 1,
           (solveLoop step resid tol fuel (step g)).2.2) := by
        rw [solveLoop_succ, if_neg hres]
      obtain ⟨ihA, ihB, ihC, ihD, ihE, ihF⟩ := ih (step g)
      rw [hL]
      refine ⟨?_, ?_, ?_, ?_, ?_, ?_⟩
      · show (solveLoop step resid tol fuel (step g)).1 =
          step^[(solveLoop step resid tol fuel (step g)).2.1 + 1] g
        rw [Function.iterate_succ_apply]
        exact ihA
      · show (solveLoop step resid tol fuel (step g)).2.1 + 1 ≤ fuel + 1
        exact Nat.succ_le_succ ihB
      · intro h
        exact ihC h
      · intro h
        show (solveLoop step resid tol fuel (step g)).2.1 + 1 = fuel + 1
        rw [ihD h]
      · intro k hk1 hklt
        have hklt' : k < (solveLoop step resid tol fuel (step g)).2.1 + 1 := hklt
        obtain ⟨k', rfl⟩ : ∃ k', k = k' + 1 := ⟨k - 1, by omega⟩
        rw [Function.iterate_succ_apply]
        rcases Nat.eq_zero_or_pos k' with hk0 | hkpos
        · subst hk0
          rw [Function.iterate_zero_apply]
          exact not_lt.mp hres
        · exact ihE k' hkpos (by omega)
      · intro h k hk1 hkle
        have h' : (solveLoop step resid tol fuel (step g)).2.2 = false := h
        obtain ⟨k', rfl⟩ : ∃ k', k = k' + 1 := ⟨k - 1, by omega⟩
        rw [Function.iterate_succ_apply]
        rcases Nat.eq_zero_or_pos k' with hk0 | hkpos
        · subst hk0
          rw [Function.iterate_zero_apply]
          exact not_lt.mp hres
        · exact ihF h' k' hkpos (by omega)

/-- C6: `solve()` runs conjugate-gradient iterations, stopping as soon as
the residual passes the configured tolerance or the iteration count reaches
`solverMaxIterations`; reaching the cap without convergence is reported as a
distinguishable `false` flag, the last iterate is kept as the result, and the
call returns normally. -/
theorem solve_spec (step : SphericalTriGrid → SphericalTriGrid)
    (resid : SphericalTriGrid → ℝ) (tol : ℝ) (solverMaxIterations : ℕ)
    (g : SphericalTriGrid) (r : SphericalTriGrid × ℕ × Bool)
    (hr : r = solve step resid tol solverMaxIterations g) :
    r.1 = step^[r.2.1] g ∧
    r.2.1 ≤ solverMaxIterations ∧
    (r.2.2 = true → resid r.1 < tol) ∧
    (r.2.2 = false → r.2.1 = solverMaxIterations) ∧
    (∀ k, 1 ≤ k → k < r.2.1 → tol ≤ resid (step^[k] g)) ∧
    (r.2.2 = false → ∀ k, 1 ≤ k → k ≤ solverMaxIterations →
      tol ≤ resid (step^[k] g)) := by
  subst hr
  exact solveLoop_spec step resid tol solverMaxIterations g

/-- Witness for C6: with a residual that passes immediately, the solver
converges in one iteration. -/
theorem solve_spec_witness :
    (solve id (fun _ => (0 : ℝ)) 1 3 gridDep).2.1 ≤ 3 ∧
    (fun _ : SphericalTriGrid => (0 : ℝ))
      (solve id (fun _ => (0 : ℝ)) 1 3 gridDep).1 < 1 := by
  have heval : solve id (fun _ => (0 : ℝ)) 1 3 gridDep = (gridDep, 1, true) := by
    show solveLoop id (fun _ => (0 : ℝ)) 1 3 gridDep = (gridDep, 1, true)
    rw [show (3 : ℕ) = 2 + 1 from rfl, solveLoop_succ,
      if_pos (show (fun _ : SphericalTriGrid => (0 : ℝ)) (id gridDep) < 1 by norm_num)]
    rfl
  obtain ⟨hA, hB, hC, _⟩ := solve_spec id (fun _ => (0 : ℝ)) 1 3 gridDep _ rfl
  exact ⟨hB, hC (by rw [heval])⟩

/-! ## Theorems: field-aligned-current offset (C7) -/

/-- `offset_FAC` keeps the element storage. -/
theorem offset_FAC_elements (g : SphericalTriGrid) :
    (g.offset_FAC).elements = g.elements := rfl

/-- `offset_FAC` keeps the node count. -/
theorem offset_FAC_length (g : SphericalTriGrid) :
    (g.offset_FAC).nodes.length = g.nodes.length :=
  List.length_map _ _

/-- The effect of `offset_FAC` on an in-range node. -/
theorem offset_FAC_node_of_lt (g : SphericalTriGrid) (n : ℕ)
    (hn : n < g.nodes.length) :
    (g.offset_FAC).node n =
      { g.node n with
          parameters := Function.update (g.node n).parameters facSourceIndex
            ((g.node n).parameters facSourceIndex -
              totalFAC g / totalArea g) } := by
  show (g.nodes.map _).getD n defaultNode = _
  rw [List.getD_eq_getElem?_getD, List.getElem?_map, List.getElem?_eq_getElem hn]
  show { g.nodes[n] with
      parameters := Function.update g.nodes[n].parameters facSourceIndex
        (g.nodes[n].parameters facSourceIndex - totalFAC g / totalArea g) } = _
  rw [show g.node n = g.nodes[n] from List.getD_eq_getElem g.nodes defaultNode hn]

/-- `offset_FAC` is the identity on out-of-range node reads. -/
theorem offset_FAC_node_of_ge (g : SphericalTriGrid) (n : ℕ)
    (hn : g.nodes.length ≤ n) :
    (g.offset_FAC).node n = g.node n := by
  show (g.nodes.map _).getD n defaultNode = g.nodes.getD n defaultNode
  rw [List.getD_eq_getElem?_getD, List.getElem?_map, List.getElem?_eq_none hn,
    List.getD_eq_getElem?_getD, List.getElem?_eq_none hn]
  rfl

/-- `offset_FAC` keeps every node's sphere position. -/
theorem offset_FAC_node_x (g : SphericalTriGrid) (n : ℕ) :
    ((g.offset_FAC).node n).x = (g.node n).x := by
  rcases Nat.lt_or_ge n g.nodes.length with hn | hn
  · rw [offset_FAC_node_of_lt g n hn]
  · rw [offset_FAC_node_of_ge g n hn]

/-- `offset_FAC` keeps every node's touching-element count. -/
theorem offset_FAC_node_touchCount (g : SphericalTriGrid) (n : ℕ) :
    ((g.offset_FAC).node n).numTouchingElements =
      (g.node n).numTouchingElements := by
  rcases Nat.lt_or_ge n g.nodes.length with hn | hn
  · rw [offset_FAC_node_of_lt g n hn]
  · rw [offset_FAC_node_of_ge g n hn]

/-- `offset_FAC` keeps every node's touching-element list. -/
theorem offset_FAC_node_touchList (g : SphericalTriGrid) (n : ℕ) :
    ((g.offset_FAC).node n).touchingElements = (g.node n).touchingElements := by
  rcases Nat.lt_or_ge n g.nodes.length with hn | hn
  · rw [offset_FAC_node_of_lt g n hn]
  · rw [offset_FAC_node_of_ge g n hn]

/-- `offset_FAC` keeps every element's area. -/
theorem offset_FAC_elementArea (g : SphericalTriGrid) (e : ℕ) :
    (g.offset_FAC).elementArea e = g.elementArea e := by
  simp only [SphericalTriGrid.elementArea, SphericalTriGrid.element,
    offset_FAC_elements, offset_FAC_node_x]

/-- `offset_FAC` keeps every node's neighbour area. -/
theorem offset_FAC_nodeNeighbourArea (g : SphericalTriGrid) (n : ℕ) :
    (g.offset_FAC).nodeNeighbourArea n = g.nodeNeighbourArea n := by
  unfold SphericalTriGrid.nodeNeighbourArea
  simp only [offset_FAC_node_touchCount, offset_FAC_node_touchList,
    offset_FAC_elementArea]

/-- C7: for any source-term assignment, `offset_FAC` makes the area-weighted
sum of the field-aligned-current source parameter over all nodes of the mesh
exactly zero (given a mesh of nonzero total area weight). -/
theorem offset_FAC_spec (g : SphericalTriGrid) (hW : totalArea g ≠ 0) :
    totalFAC (g.offset_FAC) = 0 := by
  unfold totalFAC
  rw [offset_FAC_length]
  have hterm : ∀ n ∈ Finset.range g.nodes.length,
      (g.offset_FAC).nodeNeighbourArea n *
        ((g.offset_FAC).node n).parameters facSourceIndex =
      g.nodeNeighbourArea n *
        ((g.node n).parameters facSourceIndex -
          totalFAC g / totalArea g) := by
    intro n hn
    rw [offset_FAC_nodeNeighbourArea, offset_FAC_node_of_lt g n (Finset.mem_range.mp hn)]
    show g.nodeNeighbourArea n *
        Function.update (g.node n).parameters facSourceIndex
          ((g.node n).parameters facSourceIndex - totalFAC g / totalArea g)
          facSourceIndex = _
    rw [Function.update_same]
  rw [Finset.sum_congr rfl hterm]
  simp only [mul_sub]
  rw [Finset.sum_sub_distrib, ← Finset.sum_mul]
  show totalFAC g - totalArea g * (totalFAC g / totalArea g) = 0
  rw [mul_comm (totalArea g) (totalFAC g / totalArea g),
    div_mul_cancel₀ (totalFAC g) hW, sub_self]

/-- Witness for C7: the concrete one-element grid has total area `3/2`, and
after `offset_FAC` its area-weighted source sum is zero. -/
theorem offset_FAC_spec_witness : totalFAC (gridTri.offset_FAC) = 0 := by
  have hsqrt9 : Real.sqrt (9 : ℝ) = 3 := by
    rw [show (9 : ℝ) = 3 ^ 2 by norm_num]
    exact Real.sqrt_sq (by norm_num)
  have hA0 : gridTri.elementArea 0 = 3 / 2 := by
    show (0.5 : ℝ) * Real.sqrt
        (((0 - 0) * (1 - 0) - (0 - 1) * (0 - -1)) *
           ((0 - 0) * (1 - 0) - (0 - 1) * (0 - -1)) +
         ((0 - 1) * (0 - 0) - (2 - 0) * (1 - 0)) *
           ((0 - 1) * (0 - 0) - (2 - 0) * (1 - 0)) +
         ((2 - 0) * (0 - -1) - (0 - 0) * (0 - 0)) *
           ((2 - 0) * (0 - -1) - (0 - 0) * (0 - 0))) = 3 / 2
    rw [show (((0 : ℝ) - 0) * (1 - 0) - (0 - 1) * (0 - -1)) *
           ((0 - 0) * (1 - 0) - (0 - 1) * (0 - -1)) +
         ((0 - 1) * (0 - 0) - (2 - 0) * (1 - 0)) *
           ((0 - 1) * (0 - 0) - (2 - 0) * (1 - 0)) +
         ((2 - 0) * (0 - -1) - (0 - 0) * (0 - 0)) *
           ((2 - 0) * (0 - -1) - (0 - 0) * (0 - 0)) = (9 : ℝ) by norm_num]
    rw [hsqrt9]
    norm_num
  have hN0 : gridTri.nodeNeighbourArea 0 = 0 + gridTri.elementArea 0 := rfl
  have hN1 : gridTri.nodeNeighbourArea 1 = 0 := rfl
  have hN2 : gridTri.nodeNeighbourArea 2 = 0 := rfl
  have hTA : totalArea gridTri = 3 / 2 := by
    unfold totalArea
    rw [show gridTri.nodes.length = 3 from rfl]
    rw [Finset.sum_range_succ, Finset.sum_range_succ, Finset.sum_range_succ,
      Finset.sum_range_zero]
    rw [hN0, hN1, hN2, hA0]
    norm_num
  exact offset_FAC_spec gridTri (by rw [hTA]; norm_num)

/-- Witness for C9: a 3x3x3 mesh and global ID 19. -/
theorem getIndices_getGlobalID_roundtrip_witness :
    ((VelocityMesh.initializeMesh (fun _ => (0 : ℝ)) (fun _ => 3) (fun _ => 2)).getIndices 19).1 = 0 ∧
    ((VelocityMesh.initializeMesh (fun _ => (0 : ℝ)) (fun _ => 3) (fun _ => 2)).getIndices 19).2.1 ≠
      error_velocity_block_index ∧
    ((VelocityMesh.initializeMesh (fun _ => (0 : ℝ)) (fun _ => 3) (fun _ => 2)).getIndices 19).2.2.1 ≠
      error_velocity_block_index ∧
    ((VelocityMesh.initializeMesh (fun _ => (0 : ℝ)) (fun _ => 3) (fun _ => 2)).getIndices 19).2.2.2 ≠
      error_velocity_block_index ∧
    (VelocityMesh.initializeMesh (fun _ => (0 : ℝ)) (fun _ => 3) (fun _ => 2)).getGlobalID
      ((VelocityMesh.initializeMesh (fun _ => (0 : ℝ)) (fun _ => 3) (fun _ => 2)).getIndices 19).1
      ((VelocityMesh.initializeMesh (fun _ => (0 : ℝ)) (fun _ => 3) (fun _ => 2)).getIndices 19).2.1
      ((VelocityMesh.initializeMesh (fun _ => (0 : ℝ)) (fun _ => 3) (fun _ => 2)).getIndices 19).2.2.1
      ((VelocityMesh.initializeMesh (fun _ => (0 : ℝ)) (fun _ => 3) (fun _ => 2)).getIndices 19).2.2.2 =
      19 :=
  getIndices_getGlobalID_roundtrip (fun _ => (0 : ℝ)) (fun _ => 3) (fun _ => 2) _ rfl
    (by decide) (by decide) 19 (by decide)

/-- C9 counterexample to the unamended claim: with
`gridLength = (65536, 65537, 2)` the triple product wraps to
`max_velocity_blocks = 131072`, and for the in-range global ID 100000 the
`k` divisor `65536 * 65537` wraps to `65536`, so `getIndices` yields
`(0, 34464, 1, 1)` and `getGlobalID` re-encodes it to `165536`, not
`100000`. -/
theorem getIndices_getGlobalID_roundtrip_counterexample :
    100000 < vmeshWrap.max_velocity_blocks ∧
    vmeshWrap.getGlobalID (vmeshWrap.getIndices 100000).1
      (vmeshWrap.getIndices 100000).2.1 (vmeshWrap.getIndices 100000).2.2.1
      (vmeshWrap.getIndices 100000).2.2.2 ≠ 100000 ∧
    vmeshWrap.getGlobalID (vmeshWrap.getIndices 100000).1
      (vmeshWrap.getIndices 100000).2.1 (vmeshWrap.getIndices 100000).2.2.1
      (vmeshWrap.getIndices 100000).2.2.2 = 165536 := by decide

end Vlasiator
